import Mathlib

/-!
Shallow embedding of the service in src/main.py: a FastAPI application with a
plain CRUD table (`items`) and a pgvector-backed table (`documents`) holding
text together with a 768-dimensional embedding, queried by cosine distance.

The embedding model (OllamaEmbeddings) is an external collaborator: the
pipeline functions below take the outcome of the embedding call as an
argument (`Except EmbErr (List ℚ)`), so a successful call supplies the vector
and a failed call supplies the error, exactly as the call site in
`add_document` / `search_document` observes it.

Vector components are modelled as exact rationals and cosine distance as a
real number: an exact idealization of the double-precision arithmetic the
database performs.
-/

/-- Error taxonomy of the spec (§7): dimension mismatch, embedding failure,
storage failure. -/
inductive ApiErr where
  | dimensionMismatch
  | embeddingUnavailable
  | storageUnavailable
deriving DecidableEq

/-- Failure of the external embedding call. -/
inductive EmbErr where
  | unavailable
deriving DecidableEq

/-- A row of the `documents` table (src/main.py lines 41-46):
`id` integer primary key, `content` Text, `embedding` Vector(768).
The columns are declared without NOT NULL, so both payload fields are
`Option`; the code paths below only ever write both together. -/
structure Document where
  id : Nat
  content : Option String
  embedding : Option (List ℚ)

/-- The `documents` table plus the primary-key sequence that assigns ids. -/
structure Store where
  nextId : Nat
  docs : List Document

/-- A row of the `items` table (src/main.py lines 31-36). -/
structure Item where
  id : Nat
  name : String
  description : String

/-- The `items` table plus its primary-key sequence. -/
structure ItemStore where
  nextId : Nat
  items : List Item

/-- Dot product of two rational vectors (componentwise, stopping at the
shorter list). -/
def dot : List ℚ → List ℚ → ℚ
  | a :: as, b :: bs => a * b + dot as bs
  | _, _ => 0

/-- Cosine distance `1 - (q . v) / (|q| * |v|)` as computed by pgvector's
`<=>` operator, idealized over the reals. Division by zero follows the Lean
convention (the real engine yields NaN for a zero vector; that case is
unreachable for vectors produced by the embedding model and is outside every
claim's hypotheses). -/
noncomputable def cosDist (q v : List ℚ) : ℝ :=
  1 - ((dot q v : ℚ) : ℝ) / (Real.sqrt ((dot q q : ℚ) : ℝ) * Real.sqrt ((dot v v : ℚ) : ℝ))

/-- The embedding column of a row as read by the distance computation. -/
def optEmb (d : Document) : List ℚ := d.embedding.getD []

/-- Distance of a stored row from the query vector. -/
noncomputable def distTo (q : List ℚ) (d : Document) : ℝ := cosDist q (optEmb d)

/-- One result row of the search endpoint: id, content, distance
(src/main.py lines 138-145). -/
abbrev Row := Nat × Option String × ℝ

/-- The dictionary built for one result row (src/main.py lines 139-144). -/
noncomputable def rowOf (q : List ℚ) (d : Document) : Row := (d.id, d.content, distTo q d)

/-- Insert of a `(content, embedding)` pair into the `documents` table, as
performed by `db.add` + `db.commit` in `add_document` (src/main.py lines
113-116). The length check models the `Vector(768)` column type declared at
src/main.py line 46; its enforcement lives in the storage layer.
Modelled from the spec: §4.1 `insert` fails with `DimensionMismatch` when the
embedding length differs from the fixed dimension 768, leaving the store
unchanged (the transaction aborts, the error branch returns no new store). -/
def insertDoc (s : Store) (content : String) (v : List ℚ) : Except ApiErr (Store × Nat) :=
  if v.length = 768 then
    Except.ok (⟨s.nextId + 1, s.docs ++ [⟨s.nextId, some content, some v⟩]⟩, s.nextId)
  else Except.error ApiErr.dimensionMismatch

/-- The `/vector/add` endpoint `add_document` (src/main.py lines 109-120):
embed the content, then insert the pair. The embedding call happens first;
if it fails, nothing is added to the session, so the store is returned
untouched. On success the endpoint answers with the new id and the literal
message of line 120. -/
def add_document (s : Store) (content : String) (embRes : Except EmbErr (List ℚ)) :
    Store × Except ApiErr (Nat × String) :=
  match embRes with
  | Except.error _ => (s, Except.error ApiErr.embeddingUnavailable)
  | Except.ok v =>
    match insertDoc s content v with
    | Except.error e => (s, Except.error e)
    | Except.ok (s2, i) => (s2, Except.ok (i, "Stored with embedding"))

/-- The result set of the SELECT issued by `search_document` (src/main.py
lines 126-134): every row of `documents` with its cosine distance to the
query vector, `ORDER BY distance`, `LIMIT 3`. The ORDER BY key is the
distance alone, so the relative order of rows with equal distance is not
specified by the SQL semantics: the outcome is any distance-sorted
permutation of the table, truncated to 3 rows. -/
def RankOutcome (s : Store) (q : List ℚ) (res : List Row) : Prop :=
  ∃ l : List Document, l.Perm s.docs ∧ l.Pairwise (fun a b => distTo q a ≤ distTo q b) ∧
    res = (l.take 3).map (rowOf q)

/-- The `/vector/search` endpoint `search_document` (src/main.py lines
122-146): embed the query, then run the ranking SELECT. A failed embedding
call aborts the request. Modelled from the spec: §4.2, the ranker fails with
`DimensionMismatch` when the query vector's length differs from the fixed
dimension 768 of the `Vector(768)` column (enforcement lives in the storage
layer, not in src/main.py itself). -/
inductive SearchDocument (s : Store) : Except EmbErr (List ℚ) → Except ApiErr (List Row) → Prop where
  | embFail (e : EmbErr) :
      SearchDocument s (Except.error e) (Except.error ApiErr.embeddingUnavailable)
  | dimFail (q : List ℚ) (hq : q.length ≠ 768) :
      SearchDocument s (Except.ok q) (Except.error ApiErr.dimensionMismatch)
  | ok (q : List ℚ) (res : List Row) (hq : q.length = 768) (hr : RankOutcome s q res) :
      SearchDocument s (Except.ok q) (Except.ok res)

/-- The `/items/{item_id}` DELETE endpoint `delete_item` (src/main.py lines
95-104): look up the first row with the given id; if none exists answer with
the error value of line 100 and touch nothing; otherwise erase that row and
answer with the message of line 104. -/
def delete_item (db : ItemStore) (item_id : Nat) : ItemStore × Except String String :=
  match db.items.find? (fun it => it.id == item_id) with
  | none => (db, Except.error "Item not found")
  | some _ =>
    (⟨db.nextId, db.items.eraseP (fun it => it.id == item_id)⟩, Except.ok "Item deleted")

/-- The `/items` POST endpoint `create_item` (src/main.py lines 77-85). -/
def create_item (db : ItemStore) (nm desc : String) : ItemStore × Item :=
  (⟨db.nextId + 1, db.items ++ [⟨db.nextId, nm, desc⟩]⟩, ⟨db.nextId, nm, desc⟩)

/-- One operation a request handler performs on the `documents` table through
its session. -/
inductive SessionOp where
  | insertRow (d : Document)
  | deleteRow (i : Nat)
  | selectDocs

/-- Effect of one session operation on the `documents` table. A SELECT
(`selectDocs`) reads and leaves the table as it is. -/
def applyOp (docs : List Document) : SessionOp → List Document
  | SessionOp.insertRow d => docs ++ [d]
  | SessionOp.deleteRow i => docs.eraseP (fun x => x.id == i)
  | SessionOp.selectDocs => docs

/-- Effect of a whole session transcript on the `documents` table. -/
def runSession (docs : List Document) : List SessionOp → List Document
  | [] => docs
  | op :: ops => runSession (applyOp docs op) ops

/-- Session transcript of `search_document` (src/main.py lines 122-146): the
handler issues exactly one SELECT (`db.query(...).order_by(...).limit(3).all()`)
and no INSERT, UPDATE or DELETE, whatever the query text was. -/
def searchSession (_q : List ℚ) : List SessionOp := [SessionOp.selectDocs]

/-- Well-formedness of one stored document row: content present, and exactly
one embedding present, of the fixed dimension 768. -/
def DocWF (d : Document) : Prop :=
  (∃ c, d.content = some c) ∧ ∃ v, d.embedding = some v ∧ v.length = 768

/-- The content-embedding pairing invariant over the whole store. -/
def StoreInv (s : Store) : Prop := ∀ d ∈ s.docs, DocWF d

/-- Second definition, for the refinement comparison of claim C5 only: the
query/rank contract as the spec words it — results sorted ascending by
distance with ascending-id tie-break, truncated to the caller-supplied `k`. -/
def RankSpecOutcome (s : Store) (q : List ℚ) (k : Nat) (res : List Row) : Prop :=
  ∃ l : List Document, l.Perm s.docs ∧
    l.Pairwise (fun a b => distTo q a < distTo q b ∨ (distTo q a = distTo q b ∧ a.id ≤ b.id)) ∧
    res = (l.take k).map (rowOf q)

/-- A concrete valid 768-dimensional vector: first basis vector. -/
def e1 : List ℚ := 1 :: List.replicate 767 0

/-- Concrete documents used in counterexamples and witnesses. -/
def dA : Document := ⟨1, some "a", some e1⟩

def dB : Document := ⟨2, some "b", some e1⟩

def dC : Document := ⟨3, some "c", some e1⟩

def dD : Document := ⟨4, some "d", some e1⟩

/-- A store with two rows whose embeddings are at equal distance from `e1`. -/
def storeAB : Store := ⟨3, [dA, dB]⟩

/-- A store with four rows, one more than the hard-coded LIMIT 3. -/
def store4 : Store := ⟨5, [dA, dB, dC, dD]⟩

/-- The empty store, as created at startup. -/
def store0 : Store := ⟨1, []⟩

/-- The empty items table. -/
def items0 : ItemStore := ⟨1, []⟩

/-- Search output listing `dA` before `dB`. -/
noncomputable def resAB : List Row := [(1, some "a", (0 : ℝ)), (2, some "b", (0 : ℝ))]

/-- Search output listing `dB` before `dA`. -/
noncomputable def resBA : List Row := [(2, some "b", (0 : ℝ)), (1, some "a", (0 : ℝ))]

/-- A search output over `store4`: three rows, the LIMIT. -/
noncomputable def res3 : List Row :=
  [(1, some "a", (0 : ℝ)), (2, some "b", (0 : ℝ)), (3, some "c", (0 : ℝ))]

/-- The output the spec's `rank` contract yields over `store4` with `k = 4`. -/
noncomputable def res4 : List Row :=
  [(1, some "a", (0 : ℝ)), (2, some "b", (0 : ℝ)), (3, some "c", (0 : ℝ)), (4, some "d", (0 : ℝ))]

lemma dot_self_nonneg (v : List ℚ) : 0 ≤ dot v v := by
  induction v with
  | nil => simp [dot]
  | cons x xs ih =>
    have hx : 0 ≤ x * x := mul_self_nonneg x
    simpa [dot] using add_nonneg hx ih

lemma dot_sq_le (a : List ℚ) : ∀ b : List ℚ, dot a b * dot a b ≤ dot a a * dot b b := by
  induction a with
  | nil => intro b; simp [dot]
  | cons x xs ih =>
    intro b
    cases b with
    | nil => simp [dot]
    | cons y ys =>
      have hA : 0 ≤ dot xs xs := dot_self_nonneg xs
      have hB : 0 ≤ dot ys ys := dot_self_nonneg ys
      have ihb := ih ys
      set d := dot xs ys with hd
      set A := dot xs xs with hA2
      set B := dot ys ys with hB2
      have h1 : (2 * (x * y) * d) ^ 2 ≤ (x ^ 2 * B + y ^ 2 * A) ^ 2 := by
        nlinarith [sq_nonneg (x ^ 2 * B - y ^ 2 * A),
          mul_nonneg (sq_nonneg (x * y)) (sub_nonneg.mpr ihb)]
      have h2 : 0 ≤ x ^ 2 * B + y ^ 2 * A :=
        add_nonneg (mul_nonneg (sq_nonneg x) hB) (mul_nonneg (sq_nonneg y) hA)
      have h3 : 2 * (x * y) * d ≤ x ^ 2 * B + y ^ 2 * A := by
        nlinarith [h1, h2]
      show (x * y + d) * (x * y + d) ≤ (x * x + A) * (y * y + B)
      nlinarith [ihb, h3]

lemma cosDist_nonneg (q v : List ℚ) : 0 ≤ cosDist q v := by
  unfold cosDist
  set Q := ((dot q v : ℚ) : ℝ) with hQ
  set A := ((dot q q : ℚ) : ℝ) with hA
  set B := ((dot v v : ℚ) : ℝ) with hB
  have hA0 : 0 ≤ A := by rw [hA]; exact_mod_cast dot_self_nonneg q
  have hB0 : 0 ≤ B := by rw [hB]; exact_mod_cast dot_self_nonneg v
  have hQQ : Q ^ 2 ≤ A * B := by
    have h : ((dot q v * dot q v : ℚ) : ℝ) ≤ ((dot q q * dot v v : ℚ) : ℝ) := by
      exact_mod_cast dot_sq_le q v
    rw [hQ, hA, hB]
    push_cast at h
    nlinarith [h]
  by_cases hS : Real.sqrt A * Real.sqrt B = 0
  · rw [hS]
    simp
  · have hS0 : 0 ≤ Real.sqrt A * Real.sqrt B :=
      mul_nonneg (Real.sqrt_nonneg A) (Real.sqrt_nonneg B)
    have hSpos : 0 < Real.sqrt A * Real.sqrt B := lt_of_le_of_ne hS0 (Ne.symm hS)
    have hQle : Q ≤ Real.sqrt A * Real.sqrt B := by
      have h1 : Q ≤ |Q| := le_abs_self Q
      have h2 : |Q| = Real.sqrt (Q ^ 2) := (Real.sqrt_sq_eq_abs Q).symm
      have h3 : Real.sqrt (Q ^ 2) ≤ Real.sqrt (A * B) := Real.sqrt_le_sqrt hQQ
      have h4 : Real.sqrt (A * B) = Real.sqrt A * Real.sqrt B := Real.sqrt_mul hA0 B
      calc Q ≤ |Q| := h1
        _ = Real.sqrt (Q ^ 2) := h2
        _ ≤ Real.sqrt (A * B) := h3
        _ = Real.sqrt A * Real.sqrt B := h4
    have : Q / (Real.sqrt A * Real.sqrt B) ≤ 1 := (div_le_one hSpos).mpr hQle
    linarith

lemma cosDist_self (v : List ℚ) (h : dot v v ≠ 0) : cosDist v v = 0 := by
  unfold cosDist
  have h0 : 0 ≤ ((dot v v : ℚ) : ℝ) := by exact_mod_cast dot_self_nonneg v
  have hne : ((dot v v : ℚ) : ℝ) ≠ 0 := by exact_mod_cast h
  rw [Real.mul_self_sqrt h0, div_self hne]
  ring

lemma dot_replicate_zero (n : Nat) : dot (List.replicate n (0 : ℚ)) (List.replicate n 0) = 0 := by
  induction n with
  | zero => simp [dot]
  | succ m ih => simp [List.replicate_succ, dot, ih]

lemma dot_cons (a b : ℚ) (as bs : List ℚ) : dot (a :: as) (b :: bs) = a * b + dot as bs := rfl

lemma dot_e1_e1 : dot e1 e1 = 1 := by
  unfold e1
  rw [dot_cons, dot_replicate_zero]
  norm_num

lemma e1_length : e1.length = 768 := by
  unfold e1
  rw [List.length_cons, List.length_replicate]

lemma cosDist_e1_e1 : cosDist e1 e1 = 0 := by
  apply cosDist_self
  rw [dot_e1_e1]
  norm_num

lemma distTo_of_emb_e1 (d : Document) (h : d.embedding = some e1) : distTo e1 d = 0 := by
  simp [distTo, optEmb, h, cosDist_e1_e1]

lemma distTo_mk (i : Nat) (c : Option String) : distTo e1 ⟨i, c, some e1⟩ = 0 :=
  distTo_of_emb_e1 _ rfl

lemma search_storeAB_AB : SearchDocument storeAB (Except.ok e1) (Except.ok resAB) := by
  refine SearchDocument.ok e1 resAB e1_length ?_
  refine ⟨[dA, dB], List.Perm.refl _, ?_, ?_⟩
  · simp [List.pairwise_cons, dA, dB, distTo_mk]
  · simp [resAB, rowOf, dA, dB, distTo_mk]

lemma search_storeAB_BA : SearchDocument storeAB (Except.ok e1) (Except.ok resBA) := by
  refine SearchDocument.ok e1 resBA e1_length ?_
  refine ⟨[dB, dA], List.Perm.swap dA dB [], ?_, ?_⟩
  · simp [List.pairwise_cons, dA, dB, distTo_mk]
  · simp [resBA, rowOf, dA, dB, distTo_mk]

lemma search_store4_res3 : SearchDocument store4 (Except.ok e1) (Except.ok res3) := by
  refine SearchDocument.ok e1 res3 e1_length ?_
  refine ⟨[dA, dB, dC, dD], List.Perm.refl _, ?_, ?_⟩
  · simp [List.pairwise_cons, dA, dB, dC, dD, distTo_mk]
  · simp [res3, rowOf, dA, dB, dC, dD, distTo_mk]

lemma rankSpec_store4 : RankSpecOutcome store4 e1 4 res4 := by
  refine ⟨[dA, dB, dC, dD], List.Perm.refl _, ?_, ?_⟩
  · simp [List.pairwise_cons, dA, dB, dC, dD, distTo_mk]
  · simp [res4, rowOf, dA, dB, dC, dD, distTo_mk]

/-- Claim C4: ingestion atomicity — when the embedding call fails, the store
after `add_document` equals the store before it and the endpoint reports the
failure; no partial record is written. -/
theorem c4_ingest_atomicity (s : Store) (c : String) (e : EmbErr) :
    add_document s c (Except.error e) = (s, Except.error ApiErr.embeddingUnavailable) := rfl

/-- Claim C9: reads never mutate — the session transcript of the search
endpoint, applied to any state of the `documents` table and for any query,
leaves the table exactly as it was. -/
theorem c9_reads_never_mutate (docs : List Document) (q : List ℚ) :
    runSession docs (searchSession q) = docs := rfl

/-- Claim C3: dimension validation — an insert with a vector whose length is
not 768 fails with `DimensionMismatch` and leaves the store unchanged, and a
ranking query whose vector length is not 768 answers `DimensionMismatch`. -/
theorem c3_dimension_validation (s : Store) (c : String) (v q : List ℚ)
    (r : Except ApiErr (List Row)) (hv : v.length ≠ 768) (hq : q.length ≠ 768)
    (hs : SearchDocument s (Except.ok q) r) :
    add_document s c (Except.ok v) = (s, Except.error ApiErr.dimensionMismatch) ∧
      r = Except.error ApiErr.dimensionMismatch := by
  constructor
  · simp [add_document, insertDoc, hv]
  · cases hs with
    | dimFail _ _ => rfl
    | ok _ _ hq2 _ => exact absurd hq2 hq

/-- Witness for C3 at the concrete vector `[1]` (length 1) over the empty
store. -/
theorem c3_dimension_validation_witness :
    add_document store0 "x" (Except.ok [1]) = (store0, Except.error ApiErr.dimensionMismatch) ∧
      (Except.error ApiErr.dimensionMismatch : Except ApiErr (List Row)) =
        Except.error ApiErr.dimensionMismatch :=
  c3_dimension_validation store0 "x" [1] [1] (Except.error ApiErr.dimensionMismatch)
    (by decide) (by decide) (SearchDocument.dimFail [1] (by decide))

/-- Claim C7: ranking over the empty collection returns the empty sequence,
not an error, for every (valid 768-dimensional) query vector. -/
theorem c7_empty_collection (s : Store) (q : List ℚ) (r : Except ApiErr (List Row))
    (hempty : s.docs = []) (hq : q.length = 768)
    (hs : SearchDocument s (Except.ok q) r) : r = Except.ok [] := by
  cases hs with
  | dimFail _ hq2 => exact absurd hq hq2
  | ok _ res _ hr =>
    obtain ⟨l, hperm, _, hres⟩ := hr
    rw [hempty] at hperm
    have hl : l = [] := hperm.eq_nil
    subst hl
    simp at hres
    rw [hres]

/-- Witness for C7 over the empty store with the query vector `e1`. -/
theorem c7_empty_collection_witness :
    (Except.ok [] : Except ApiErr (List Row)) = Except.ok [] :=
  c7_empty_collection store0 e1 (Except.ok []) rfl e1_length
    (SearchDocument.ok e1 [] e1_length ⟨[], List.Perm.refl _, List.Pairwise.nil, rfl⟩)

/-- Claim C8: content-embedding pairing invariant — if every stored row has
its content and exactly one 768-dimensional embedding, the same holds after
any `add_document` call, whether the embedding call succeeded, the dimension
check failed, or the insert went through. -/
theorem c8_pairing_invariant (s : Store) (c : String) (embRes : Except EmbErr (List ℚ))
    (hinv : StoreInv s) : StoreInv (add_document s c embRes).1 := by
  cases embRes with
  | error e => exact hinv
  | ok v =>
    by_cases hv : v.length = 768
    · intro d hd
      have hd2 : d ∈ s.docs ++ [⟨s.nextId, some c, some v⟩] := by
        simpa [add_document, insertDoc, hv] using hd
      rcases List.mem_append.mp hd2 with h | h
      · exact hinv d h
      · rw [List.mem_singleton] at h
        subst h
        exact ⟨⟨c, rfl⟩, v, rfl, hv⟩
    · have heq : (add_document s c (Except.ok v)).1 = s := by
        simp [add_document, insertDoc, hv]
      rw [heq]
      exact hinv

/-- Witness for C8: the empty store satisfies the invariant and still does
after ingesting a document embedded as `e1`. -/
theorem c8_pairing_invariant_witness :
    StoreInv (add_document store0 "x" (Except.ok e1)).1 :=
  c8_pairing_invariant store0 "x" (Except.ok e1) (by intro d hd; simp [store0] at hd)

/-- Claim C10: deleting a missing item id answers the error value
"Item not found" and leaves the items table unchanged; nothing is deleted
and no deletion is committed. -/
theorem c10_delete_missing_item (db : ItemStore) (item_id : Nat)
    (h : ∀ it ∈ db.items, it.id ≠ item_id) :
    delete_item db item_id = (db, Except.error "Item not found") := by
  have hf : db.items.find? (fun it => it.id == item_id) = none := by
    rw [List.find?_eq_none]
    intro it hit
    simpa using h it hit
  simp [delete_item, hf]

/-- Witness for C10: deleting id 5 from the empty items table. -/
theorem c10_delete_missing_item_witness :
    delete_item items0 5 = (items0, Except.error "Item not found") :=
  c10_delete_missing_item items0 5 (by intro it hit; simp [items0] at hit)

/-- Counterexample to claim C2: over the store with rows 1 and 2 at equal
distance from the query, the search admits the output listing id 2 before
id 1 as well as the one listing id 1 before id 2 — ties are not broken by
ascending id and identical inputs do not force an identical sequence. -/
theorem c2_tie_break_counterexample :
    SearchDocument storeAB (Except.ok e1) (Except.ok resBA) ∧
      SearchDocument storeAB (Except.ok e1) (Except.ok resAB) ∧ resBA ≠ resAB := by
  refine ⟨search_storeAB_BA, search_storeAB_AB, ?_⟩
  intro h
  have h2 := congrArg (fun l => l.map (fun r : Row => r.1)) h
  simp [resAB, resBA] at h2

/-- Claim C2 as amended: every admissible search output is sorted ascending
by distance; the relative order of rows at equal distance is left open. -/
theorem c2_sorted_by_distance (s : Store) (q : List ℚ) (res : List Row)
    (hs : SearchDocument s (Except.ok q) (Except.ok res)) :
    res.Pairwise (fun a b => a.2.2 ≤ b.2.2) := by
  cases hs with
  | ok _ _ hq hr =>
    obtain ⟨l, hperm, hsort, hres⟩ := hr
    rw [hres]
    refine List.pairwise_map.mpr ?_
    exact (hsort.sublist (List.take_sublist 3 l)).imp (fun h => h)

/-- Witness for the amended C2 at the concrete two-row store. -/
theorem c2_sorted_by_distance_witness :
    resAB.Pairwise (fun a b : Row => a.2.2 ≤ b.2.2) :=
  c2_sorted_by_distance storeAB e1 resAB search_storeAB_AB

/-- Counterexample to claim C5: the search endpoint takes no `k` — over a
four-row store its admissible output has the hard-coded length 3, while the
spec's `rank` contract called with `k = 4` yields all four rows; the code
result and the `k = 4` contract result differ. -/
theorem c5_k_parameter_counterexample :
    SearchDocument store4 (Except.ok e1) (Except.ok res3) ∧ res3.length = 3 ∧
      RankSpecOutcome store4 e1 4 res4 ∧ res4.length = 4 ∧ res3 ≠ res4 := by
  refine ⟨search_store4_res3, by simp [res3], rankSpec_store4, by simp [res4], ?_⟩
  intro h
  have h2 := congrArg List.length h
  simp [res3, res4] at h2

/-- Claim C5 as amended: the query endpoint embeds the query once and every
admissible output has length at most the fixed limit 3. -/
theorem c5_limit_three (s : Store) (q : List ℚ) (res : List Row)
    (hs : SearchDocument s (Except.ok q) (Except.ok res)) : res.length ≤ 3 := by
  cases hs with
  | ok _ _ hq hr =>
    obtain ⟨l, _, _, hres⟩ := hr
    rw [hres, List.length_map, List.length_take]
    exact min_le_left _ _

/-- Witness for the amended C5 at the concrete two-row store. -/
theorem c5_limit_three_witness : resAB.length ≤ 3 :=
  c5_limit_three storeAB e1 resAB search_storeAB_AB

/-- Counterexample to claim C6: over a four-row store every admissible search
output has length 3, so no query returns all stored records — the limit is
hard-coded at 3 and no `k` can cover the collection. -/
theorem c6_completeness_counterexample :
    SearchDocument store4 (Except.ok e1) (Except.ok res3) ∧
      store4.docs.length = 4 ∧ res3.length = 3 :=
  ⟨search_store4_res3, by simp [store4], by simp [res3]⟩

/-- Claim C6 as amended: when the collection holds at most 3 records, every
admissible search output lists every stored record exactly once, each with a
non-negative distance, in ascending distance order. -/
theorem c6_completeness_small (s : Store) (q : List ℚ) (res : List Row)
    (hlen : s.docs.length ≤ 3)
    (hs : SearchDocument s (Except.ok q) (Except.ok res)) :
    (res.map (fun r => (r.1, r.2.1))).Perm (s.docs.map (fun d => (d.id, d.content))) ∧
      (∀ r ∈ res, 0 ≤ r.2.2) ∧ res.Pairwise (fun a b => a.2.2 ≤ b.2.2) := by
  cases hs with
  | ok _ _ hq hr =>
    obtain ⟨l, hperm, hsort, hres⟩ := hr
    have hl3 : l.take 3 = l := List.take_of_length_le (by rw [hperm.length_eq]; exact hlen)
    rw [hres, hl3]
    refine ⟨?_, ?_, ?_⟩
    · have hmm : (l.map (rowOf q)).map (fun r : Row => (r.1, r.2.1)) =
          l.map (fun d => (d.id, d.content)) := by
        simp [List.map_map, rowOf, Function.comp]
      rw [hmm]
      exact hperm.map _
    · intro r hr2
      rcases List.mem_map.mp hr2 with ⟨d, hd, rfl⟩
      simpa [rowOf, distTo] using cosDist_nonneg q (optEmb d)
    · exact List.pairwise_map.mpr (hsort.imp (fun h => h))

/-- Witness for the amended C6 at the concrete two-row store. -/
theorem c6_completeness_small_witness :
    (resAB.map (fun r : Row => (r.1, r.2.1))).Perm
        (storeAB.docs.map (fun d => (d.id, d.content))) ∧
      (∀ r ∈ resAB, 0 ≤ r.2.2) ∧ resAB.Pairwise (fun a b : Row => a.2.2 ≤ b.2.2) :=
  c6_completeness_small storeAB e1 resAB (by simp [storeAB]) search_storeAB_AB

lemma add_store0 : add_document store0 "hello" (Except.ok e1) =
    (⟨2, [⟨1, some "hello", some e1⟩]⟩, Except.ok (1, "Stored with embedding")) := by
  simp [add_document, insertDoc, e1_length, store0]

/-- Claim C1: round-trip retrieval — ingesting `content` whose embedding is
the nonzero vector `v` returns the fresh id, and a subsequent search embedded
to the same `v` (deterministic embedding) lists that record first with
distance 0 whenever every previously stored row lies at strictly positive
distance from `v` (it is the closest match). -/
theorem c1_round_trip (s : Store) (c : String) (v : List ℚ) (res : List Row)
    (hv : v.length = 768) (hnz : dot v v ≠ 0)
    (hfar : ∀ d ∈ s.docs, 0 < distTo v d)
    (hs : SearchDocument (add_document s c (Except.ok v)).1 (Except.ok v) (Except.ok res)) :
    (add_document s c (Except.ok v)).2 = Except.ok (s.nextId, "Stored with embedding") ∧
      ∃ rest, res = (s.nextId, some c, (0 : ℝ)) :: rest := by
  have hstore : (add_document s c (Except.ok v)).1 =
      ⟨s.nextId + 1, s.docs ++ [⟨s.nextId, some c, some v⟩]⟩ := by
    simp [add_document, insertDoc, hv]
  have hout : (add_document s c (Except.ok v)).2 =
      Except.ok (s.nextId, "Stored with embedding") := by
    simp [add_document, insertDoc, hv]
  refine ⟨hout, ?_⟩
  have hdn : distTo v (⟨s.nextId, some c, some v⟩ : Document) = 0 := by
    simpa [distTo, optEmb] using cosDist_self v hnz
  cases hs with
  | ok _ _ hq hr =>
    obtain ⟨l, hperm, hsort, hres⟩ := hr
    have hperm2 : l.Perm (s.docs ++ [⟨s.nextId, some c, some v⟩]) := by
      rw [hstore] at hperm
      exact hperm
    have hmem : (⟨s.nextId, some c, some v⟩ : Document) ∈ l :=
      hperm2.mem_iff.mpr (by simp)
    cases l with
    | nil => simp at hmem
    | cons h t =>
      have hhead : h = ⟨s.nextId, some c, some v⟩ := by
        by_contra hne
        have hmemt : (⟨s.nextId, some c, some v⟩ : Document) ∈ t := by
          rcases List.mem_cons.mp hmem with h1 | h1
          · exact absurd h1.symm hne
          · exact h1
        have hle : distTo v h ≤ distTo v ⟨s.nextId, some c, some v⟩ :=
          (List.pairwise_cons.mp hsort).1 _ hmemt
        have hhl : h ∈ s.docs := by
          have hin : h ∈ s.docs ++ [⟨s.nextId, some c, some v⟩] :=
            hperm2.mem_iff.mp (List.mem_cons_self h t)
          rcases List.mem_append.mp hin with hh | hh
          · exact hh
          · exact absurd (List.mem_singleton.mp hh) hne
        have hpos := hfar h hhl
        rw [hdn] at hle
        linarith
      subst hhead
      rw [hres]
      refine ⟨(t.take 2).map (rowOf v), ?_⟩
      simp [List.take_succ_cons, rowOf, hdn]

/-- Witness for C1: ingesting "hello" into the empty store and searching with
the same embedding `e1` lists the new record first at distance 0. -/
theorem c1_round_trip_witness :
    (add_document store0 "hello" (Except.ok e1)).2 =
        Except.ok (store0.nextId, "Stored with embedding") ∧
      ∃ rest, [((1 : Nat), some "hello", (0 : ℝ))] =
        (store0.nextId, some "hello", (0 : ℝ)) :: rest :=
  c1_round_trip store0 "hello" e1 [(1, some "hello", (0 : ℝ))] e1_length
    (by rw [dot_e1_e1]; norm_num) (by intro d hd; simp [store0] at hd)
    (by
      have h1 : (add_document store0 "hello" (Except.ok e1)).1 =
          ⟨2, [⟨1, some "hello", some e1⟩]⟩ := by rw [add_store0]
      rw [h1]
      exact SearchDocument.ok e1 _ e1_length
        ⟨[⟨1, some "hello", some e1⟩], List.Perm.refl _, by simp,
          by simp [rowOf, distTo_mk]⟩)
